import Mathlib

/-!
Verification development for the beta-helper upgrade pipeline.

This file gives a shallow embedding of the core subsystems of the
repository — the generic retry/backoff engine (`src/common/utils.ts`),
the artifact download classification and retry policy
(`src/services/api.ts` `downloadBuild` and the orchestrator's
`downloadBuild` wrapper), the atomic install pipeline
(`verifyAndUpgrade`), and the migration registry (`queryMigrations`) —
and proves properties of those embeddings.

Machine conventions: durations are natural numbers of milliseconds;
asynchronous effects are made explicit (an operation is a function from
the attempt index to its outcome, sleeps are recorded in a trace, the
filesystem is an explicit association-list state threaded through the
install pipeline).  Version strings are compared by a semantic-version
comparator modelled after the `semver` library the code calls.
-/

namespace BetaHelper

/-! ## Retry policy engine (src/common/utils.ts, retryWithBackoff) -/

/-- Outcome of a `shouldRetry` decision: whether to retry and an optional
caller-supplied delay overriding the default exponential backoff. -/
structure RetryDecision where
  retry : Bool
  delay : Option Nat
  deriving Repr, DecidableEq

/-- Mirror of `RetryConfig`: maximum number of retries beyond the first
attempt, initial backoff delay, and an optional decision function that
receives the error and the attempt index. -/
structure RetryConfig (E : Type) where
  maxRetries : Nat
  initialDelay : Nat
  shouldRetry : Option (E → Nat → RetryDecision)

/-- Observable trace of one `retryWithBackoff` run: the final outcome,
the list of sleep durations in order, the number of invocations of the
operation, and the attempt indices at which `shouldRetry` was consulted. -/
structure RetryTrace (E A : Type) where
  result : Except E A
  sleeps : List Nat
  calls : Nat
  decided : List Nat
  deriving Repr

/-- One pass of the `for (attempt = 0; attempt <= maxRetries; ...)` loop
body of `retryWithBackoff`, starting at `attempt` with `remaining` loop
iterations left after the current one (`remaining = maxRetries - attempt`).
On failure the loop throws when `attempt >= maxRetries`; otherwise it
consults `shouldRetry` when supplied (throwing on a veto, else sleeping
for the decided delay) or sleeps for the default exponential backoff. -/
def retryFrom (fn : Nat → Except E A) (cfg : RetryConfig E) :
    Nat → Nat → RetryTrace E A
  | attempt, 0 =>
    match fn attempt with
    | .ok v => ⟨.ok v, [], 1, []⟩
    | .error e => ⟨.error e, [], 1, []⟩
  | attempt, r + 1 =>
    match fn attempt with
    | .ok v => ⟨.ok v, [], 1, []⟩
    | .error e =>
      let defaultDelay := cfg.initialDelay * 2 ^ attempt
      match cfg.shouldRetry with
      | some s =>
        let d := s e attempt
        if d.retry then
          let t := retryFrom fn cfg (attempt + 1) r
          ⟨t.result, d.delay.getD defaultDelay :: t.sleeps, t.calls + 1,
            attempt :: t.decided⟩
        else
          ⟨.error e, [], 1, [attempt]⟩
      | none =>
        let t := retryFrom fn cfg (attempt + 1) r
        ⟨t.result, defaultDelay :: t.sleeps, t.calls + 1, t.decided⟩

/-- Mirror of `retryWithBackoff(fn, config)`: run the loop from attempt 0
with `maxRetries` further iterations permitted. -/
def retryWithBackoff (fn : Nat → Except E A) (cfg : RetryConfig E) :
    RetryTrace E A :=
  retryFrom fn cfg 0 cfg.maxRetries

/-! ## Remote error classification (src/services/api.ts) -/

/-- Mirror of the `ApiError` enumeration. -/
inductive ApiError where
  | UnknownError
  | Unauthorized
  | NotFound
  | ServerError
  | BuildNotReady
  | RateLimited
  deriving Repr, DecidableEq

/-- Failures surfaced by one download attempt: an `ApiException`
carrying its classification and the optional `retry_after` context
(seconds), or an `UpgradeException` carrying a message. -/
inductive DlError where
  | apiException (error : ApiError) (retryAfter : Option Nat)
  | upgradeException (message : String)
  deriving Repr, DecidableEq

/-- A remote response to `GET builds/{tag}/download`, at the granularity
the classifier inspects: status code, the `content-type` and `x-sha256`
headers (when present), and the `retry_after` field of a 202 body. -/
structure HttpResponse where
  status : Nat
  contentType : Option String
  sha256 : Option String
  retryAfter : Option Nat
  deriving Repr, DecidableEq

/-- JavaScript truthiness of an optional header string: present and
non-empty. -/
def headerTruthy : Option String → Bool
  | some s => s ≠ ""
  | none => false

/-- Mirror of `ApiService.downloadBuild`'s status-code switch: a 200
response must carry `content-type: application/zip` and a truthy
`x-sha256` header, otherwise it is classified `UnknownError`; a 202 is
`BuildNotReady` carrying the body's `retry_after` hint; 401/404/429/500
map to their classifications and anything else is `UnknownError`. -/
def classifyDownload (r : HttpResponse) : Except DlError HttpResponse :=
  if r.status = 200 then
    if r.contentType = some "application/zip" ∧ headerTruthy r.sha256 then
      .ok r
    else
      .error (.apiException .UnknownError none)
  else if r.status = 202 then
    .error (.apiException .BuildNotReady r.retryAfter)
  else if r.status = 401 then
    .error (.apiException .Unauthorized none)
  else if r.status = 404 then
    .error (.apiException .NotFound none)
  else if r.status = 429 then
    .error (.apiException .RateLimited none)
  else if r.status = 500 then
    .error (.apiException .ServerError none)
  else
    .error (.apiException .UnknownError none)

/-! ## Artifact downloader (src/services/upgrade.ts, downloadBuild) -/

/-- Mirror of the `RETRYABLE_ERRORS` constant of the upgrade service. -/
def RETRYABLE_ERRORS : List ApiError := [.ServerError, .UnknownError]

/-- Mirror of the `RETRY_DELAY` constant (milliseconds). -/
def RETRY_DELAY : Nat := 1000

/-- The decision function installed by `downloadBuild`: `BuildNotReady`
retries iff the call is not manual, waiting `retry_after * 1000`
milliseconds (falling back to `RETRY_DELAY` when the hint is absent or
zero, mirroring `(... as number) * 1000 || RETRY_DELAY`); any other
`ApiException` outside `RETRYABLE_ERRORS` vetoes the retry; everything
else retries with the default backoff. -/
def downloadShouldRetry (manual : Bool) : DlError → Nat → RetryDecision :=
  fun error _attempt =>
    match error with
    | .apiException e ra =>
      if e = .BuildNotReady then
        let delay :=
          match ra with
          | some n => if n * 1000 = 0 then RETRY_DELAY else n * 1000
          | none => RETRY_DELAY
        ⟨!manual, some delay⟩
      else if ¬ (e ∈ RETRYABLE_ERRORS) then
        ⟨false, none⟩
      else
        ⟨true, none⟩
    | .upgradeException _ => ⟨true, none⟩

/-- Mirror of `isDownloadBuildSuccess`: a classified success always has
the `response` and `sha256` fields, so the guard holds. -/
def isDownloadBuildSuccess (_r : HttpResponse) : Bool := true

/-- One attempt of the operation `downloadBuild` passes to
`retryWithBackoff`: classify the remote response of this attempt, then
reject non-success shapes as `Invalid server response.`. -/
def downloadAttempt (server : Nat → HttpResponse) (i : Nat) :
    Except DlError HttpResponse :=
  match classifyDownload (server i) with
  | .ok r =>
    if isDownloadBuildSuccess r then .ok r
    else .error (.upgradeException "Invalid server response.")
  | .error e => .error e

/-- Mirror of the orchestrator's `downloadBuild`: wrap the per-attempt
operation in `retryWithBackoff` with `maxRetries = 5`, the default
initial delay, and `downloadShouldRetry manual` as decision function.
`server` gives the remote response that attempt `i` would observe. -/
def downloadBuild (server : Nat → HttpResponse) (manual : Bool) :
    RetryTrace DlError HttpResponse :=
  retryWithBackoff (downloadAttempt server) ⟨5, RETRY_DELAY, some (downloadShouldRetry manual)⟩

/-- A 202 not-ready response carrying a `retry_after` hint of `r` seconds. -/
def notReadyResp (r : Nat) : HttpResponse := ⟨202, none, none, some r⟩

/-- A well-formed 200 response: ZIP content type and a digest header. -/
def okResp (sha : String) : HttpResponse :=
  ⟨200, some "application/zip", some sha, none⟩

/-- A 429 rate-limited response. -/
def rateLimitedResp : HttpResponse := ⟨429, none, none, none⟩

/-! ## Filesystem model for the atomic install pipeline

The pipeline only manipulates whole directories directly under the
plugin-root folder (the staging, target and backup directories) and
files inside them.  The filesystem is an association list from
top-level directory name to directory contents; a directory is an
association list from relative file path to file contents.  The
`normalizePath(dir + "/" + rel)` addressing of the code is modelled
structurally as the pair (dir, rel). -/

/-- A directory: relative file path to file contents. -/
abbrev Dir := List (String × String)

/-- The plugin-root folder: top-level directory name to contents. -/
abbrev Fs := List (String × Dir)

/-- Association-list lookup of a directory by name. -/
def fsGet : Fs → String → Option Dir
  | [], _ => none
  | (q, d) :: rest, p => if q = p then some d else fsGet rest p

/-- Replace or append a directory binding. -/
def fsSet : Fs → String → Dir → Fs
  | [], p, d => [(p, d)]
  | (q, e) :: rest, p, d =>
    if q = p then (p, d) :: rest else (q, e) :: fsSet rest p d

/-- Remove a directory binding. -/
def fsRemove : Fs → String → Fs
  | [], _ => []
  | (q, e) :: rest, p =>
    if q = p then fsRemove rest p else (q, e) :: fsRemove rest p

/-- Mirror of `fs.exists(dir)`. -/
def fsExists (fs : Fs) (p : String) : Bool := (fsGet fs p).isSome

/-- Association-list lookup of a file inside a directory. -/
def dirGet : Dir → String → Option String
  | [], _ => none
  | (q, c) :: rest, p => if q = p then some c else dirGet rest p

/-- Replace or append a file binding inside a directory. -/
def dirSet : Dir → String → String → Dir
  | [], p, c => [(p, c)]
  | (q, e) :: rest, p, c =>
    if q = p then (p, c) :: rest else (q, e) :: dirSet rest p c

/-- Mirror of `fs.rename(src, dst)`: an O(1) move of the whole directory
entry.  Fails (`none`) when the source is missing or the destination
already exists. -/
def fsRename (fs : Fs) (src dst : String) : Option Fs :=
  match fsGet fs src with
  | none => none
  | some d =>
    if fsExists fs dst then none else some (fsSet (fsRemove fs src) dst d)

/-- Mirror of `fs.writeBinary(dir + "/" + rel, content)` for a directory
already present in the filesystem. -/
def fsWrite (fs : Fs) (dir rel content : String) : Fs :=
  match fsGet fs dir with
  | none => fsSet fs dir [(rel, content)]
  | some d => fsSet fs dir (dirSet d rel content)

/-- Mirror of the `cleanup` helper: remove the directory when it exists,
swallowing failures. -/
def cleanup (fs : Fs) (p : String) : Fs :=
  if fsExists fs p then fsRemove fs p else fs

/-! ## Atomic install pipeline (verifyAndUpgrade) -/

/-- One entry of the downloaded ZIP archive. -/
structure ZipEntry where
  relativePath : String
  isDir : Bool
  content : String
  deriving Repr, DecidableEq

/-- The error type of the pipeline: every failure surfaces as an
`UpgradeException` carrying a message (the outer catch wraps any other
error into one, preserving the message). -/
inductive UpgradeErr where
  | upgradeException (message : String)
  deriving Repr, DecidableEq

/-- Inputs of one `verifyAndUpgrade` run.  `sha256` is the expected
digest, `computedSha` the digest the verifier computes over the payload
(the cryptographic hash itself is external); `zipOk` is whether
`JSZip.loadAsync` accepts the payload and `entries` its decoded entry
list; `tempDirName`/`backupDirName` stand for the random staging name and
the timestamped backup name; `swapFails` injects a failure of the step-6
rename and `swapErrMsg`/`zipErrMsg` are the underlying error messages. -/
structure InstallRun where
  sha256 : String
  computedSha : String
  zipOk : Bool
  zipErrMsg : String
  entries : List ZipEntry
  tempDirName : String
  backupDirName : String
  swapFails : Bool
  swapErrMsg : String
  deriving Repr

/-- Mirror of the `VERTICAL_TABS_ID` constant, the target directory name. -/
def VERTICAL_TABS_ID : String := "vertical-tabs"

/-- Step 3 of the pipeline: extract every non-directory entry into the
staging directory, preserving relative paths. -/
def extractEntries (tempDir : String) : Fs → List ZipEntry → Fs
  | fs, [] => fs
  | fs, e :: rest =>
    if e.isDir then extractEntries tempDir fs rest
    else extractEntries tempDir (fsWrite fs tempDir e.relativePath e.content) rest

/-- Steps 5 and 6 of `verifyAndUpgrade`, starting from the filesystem
state `fs3` left by extraction: back up the existing plugin by an O(1)
rename when it exists, then rename the staging directory into place; if
the swap fails, rename the backup back (the rollback) and raise
`Installation failed`; if it succeeds, delete the backup. -/
def backupAndSwap (run : InstallRun) (fs3 : Fs) : Except UpgradeErr Unit × Fs :=
  let tempDir := run.tempDirName
  let targetDir := VERTICAL_TABS_ID
  let backupDir := run.backupDirName
  let hasBackup := fsExists fs3 targetDir
  match (if hasBackup then fsRename fs3 targetDir backupDir else some fs3) with
  | none => (.error (.upgradeException "Backup rename failed."), fs3)
  | some fs4 =>
    if run.swapFails then
      let fs5 :=
        if hasBackup then (fsRename fs4 backupDir targetDir).getD fs4 else fs4
      (.error (.upgradeException ("Installation failed: " ++ run.swapErrMsg)), fs5)
    else
      match fsRename fs4 tempDir targetDir with
      | none => -- the swap rename itself fails at the model level
        let fs5 :=
          if hasBackup then (fsRename fs4 backupDir targetDir).getD fs4 else fs4
        (.error (.upgradeException ("Installation failed: " ++ run.swapErrMsg)), fs5)
      | some fs5 =>
        if hasBackup then (.ok (), cleanup fs5 backupDir)
        else (.ok (), fs5)

/-- Step 4 of the pipeline: when the current install has a persisted
settings file `data.json`, copy it into the staging tree. -/
def copySettings (run : InstallRun) (fs2 : Fs) : Fs :=
  match fsGet fs2 VERTICAL_TABS_ID with
  | some d =>
    match dirGet d "data.json" with
    | some c => fsWrite fs2 run.tempDirName "data.json" c
    | none => fs2
  | none => fs2

/-- The body of the outer `try` of `verifyAndUpgrade` (steps 1-6),
returning the outcome together with the filesystem state at the moment
of return or throw.  Failure messages are exactly the ones the code
attaches.  Renames that the model cannot perform (missing source or
occupied destination) surface as thrown errors with a fixed message. -/
def verifyAndUpgradeBody (run : InstallRun) (fs0 : Fs) :
    Except UpgradeErr Unit × Fs :=
  let tempDir := run.tempDirName
  -- Step 1: verify the integrity of the build
  if run.computedSha ≠ run.sha256 then
    (.error (.upgradeException
      "File integrity check failed. The download may be corrupted."), fs0)
  -- Step 2: open the ZIP archive
  else if run.zipOk = false then
    (.error (.upgradeException run.zipErrMsg), fs0)
  else if run.entries = [] then
    (.error (.upgradeException "The downloaded file is empty or corrupted."), fs0)
  else
    -- Step 3: extract the build to the temporary directory
    let fs1 := fsSet fs0 tempDir []
    let fs2 := extractEntries tempDir fs1 run.entries
    -- Step 4: copy the existing settings file into the staging tree
    let fs3 := copySettings run fs2
    -- Steps 5 and 6: backup, swap, rollback on failure
    backupAndSwap run fs3

/-- Mirror of `verifyAndUpgrade`: run the body, and on any failure
remove the leftover staging directory (the outer catch) before
re-raising; every error is an `UpgradeException` with the message
preserved. -/
def verifyAndUpgrade (run : InstallRun) (fs0 : Fs) :
    Except UpgradeErr Unit × Fs :=
  match verifyAndUpgradeBody run fs0 with
  | (.ok (), fs) => (.ok (), fs)
  | (.error e, fs) => (.error e, cleanup fs run.tempDirName)

/-! ## Semantic versions (model of the semver library)

`queryMigrations` compares version strings through `semver.lt` /
`semver.lte` / `semver.gte`.  A version string is parsed into
major.minor.patch numerals plus an optional dot-separated pre-release
identifier list (build metadata after a `+` is ignored), and compared
lexicographically: numeric components numerically, then a release
ordering above every pre-release of the same numerals, pre-release
identifier lists lexicographically with numeric identifiers below
alphanumeric ones and a proper prefix below its extensions.  Comparators
are `Ordering`-valued; their lawfulness is captured through the
Batteries `OrientedCmp`/`TransCmp` classes. -/

/-- One pre-release identifier: numeric, or alphanumeric (kept as its
character list; all comparisons are on ASCII code points). -/
inductive PreId where
  | num (n : Nat)
  | str (s : List Char)
  deriving Repr, DecidableEq

/-- The pre-release part of a version: absent (a release), or a
non-empty list of identifiers. -/
inductive Prerelease where
  | release
  | pre (ids : List PreId)
  deriving Repr, DecidableEq

/-- A parsed semantic version. -/
structure SemVer where
  major : Nat
  minor : Nat
  patch : Nat
  prerelease : Prerelease
  deriving Repr, DecidableEq

/-- Split a character list at every occurrence of `sep`. -/
def splitChar (sep : Char) : List Char → List Char → List (List Char)
  | [], acc => [acc.reverse]
  | c :: cs, acc =>
    if c = sep then acc.reverse :: splitChar sep cs []
    else splitChar sep cs (c :: acc)

/-- Decimal value of a digit list. -/
def digitsToNat (cs : List Char) : Nat :=
  cs.foldl (fun n c => n * 10 + (c.toNat - 48)) 0

/-- Parse a numeric component: non-empty, all digits, no leading zero. -/
def parseNumeric (cs : List Char) : Option Nat :=
  match cs with
  | [] => none
  | c :: rest =>
    if (c :: rest).all Char.isDigit ∧ (c = '0' → rest = []) then
      some (digitsToNat (c :: rest))
    else none

/-- Characters permitted in a pre-release identifier. -/
def idCharOk (c : Char) : Bool := c.isDigit || c.isAlpha || c = '-'

/-- Parse one pre-release identifier: all-digit identifiers are numeric
(no leading zero), the rest are alphanumeric. -/
def parsePreId (cs : List Char) : Option PreId :=
  match cs with
  | [] => none
  | c :: rest =>
    if (c :: rest).all Char.isDigit then
      if c = '0' → rest = [] then some (.num (digitsToNat (c :: rest)))
      else none
    else if (c :: rest).all idCharOk then some (.str (c :: rest))
    else none

/-- Parse a version string: strip build metadata after `+`, split the
core from the pre-release at the first `-`, require exactly three
numeric core components, and parse the dot-separated pre-release
identifiers when present. -/
def parseSemVer (s : String) : Option SemVer :=
  let cs := s.data.takeWhile (· ≠ '+')
  let core := cs.takeWhile (· ≠ '-')
  let rest := cs.drop core.length
  match splitChar '.' core [] with
  | [ma, mi, pa] =>
    match parseNumeric ma, parseNumeric mi, parseNumeric pa with
    | some major, some minor, some patch =>
      match rest with
      | [] => some ⟨major, minor, patch, .release⟩
      | _ :: preChars =>
        match (splitChar '.' preChars []).mapM parsePreId with
        | some ids => some ⟨major, minor, patch, .pre ids⟩
        | none => none
    | _, _, _ => none
  | _ => none

/-- ASCII comparison of characters. -/
def charCmp : Char → Char → Ordering := compareOn Char.toNat

/-- Lexicographic comparison of lists under an element comparator; a
proper prefix compares below its extensions. -/
def listCmp (c : α → α → Ordering) : List α → List α → Ordering
  | [], [] => .eq
  | [], _ :: _ => .lt
  | _ :: _, [] => .gt
  | a :: as, b :: bs => (c a b).then (listCmp c as bs)

/-- Comparison of pre-release identifiers: numerically for two numeric
identifiers, ASCII-lexicographically for two alphanumeric ones, and
numeric identifiers below alphanumeric ones. -/
def preIdCmp : PreId → PreId → Ordering
  | .num a, .num b => compare a b
  | .num _, .str _ => .lt
  | .str _, .num _ => .gt
  | .str a, .str b => listCmp charCmp a b

/-- Comparison of pre-release parts: a release above every pre-release,
identifier lists lexicographically. -/
def preCmp : Prerelease → Prerelease → Ordering
  | .release, .release => .eq
  | .release, .pre _ => .gt
  | .pre _, .release => .lt
  | .pre a, .pre b => listCmp preIdCmp a b

instance : Ord Prerelease := ⟨preCmp⟩

/-- Semantic-version precedence: major, minor, patch, then pre-release. -/
def svCmp : SemVer → SemVer → Ordering :=
  compareLex (compareOn SemVer.major) (compareLex (compareOn SemVer.minor)
    (compareLex (compareOn SemVer.patch) (compareOn SemVer.prerelease)))

/-- Compare two version strings when both parse. -/
def semverCmp (s t : String) : Option Ordering :=
  match parseSemVer s, parseSemVer t with
  | some a, some b => some (svCmp a b)
  | _, _ => none

/-- Mirror of `semver.lt` on valid inputs (`false` when either side does
not parse; the library itself throws there). -/
def semverLt (s t : String) : Bool :=
  match semverCmp s t with
  | some .lt => true
  | _ => false

/-- Mirror of `semver.lte` on valid inputs. -/
def semverLte (s t : String) : Bool :=
  match semverCmp s t with
  | some .lt => true
  | some .eq => true
  | _ => false

/-- Mirror of `semver.gte` on valid inputs. -/
def semverGte (s t : String) : Bool :=
  match semverCmp s t with
  | some .gt => true
  | some .eq => true
  | _ => false

/-- Whether a version string is valid for the semver library. -/
def semverValid (s : String) : Bool := (parseSemVer s).isSome

/-! ## Migration registry (src/services/migration.ts) -/

/-- Mirror of `MigrationQualifier`. -/
structure MigrationQualifier where
  fromVersion : String
  toVersion : String
  deriving Repr, DecidableEq

/-- Mirror of `Migration`; the pre/post installation task procedures are
opaque effects, kept as values of an arbitrary type `τ`. -/
structure Migration (τ : Type) where
  qualifier : MigrationQualifier
  preInstallationTasks : τ
  postInstallationTasks : τ
  deriving Repr, DecidableEq

/-- Mirror of the beta-suffix normalization (a `replace` with the
anchored regex "-beta-" followed by one or more digits at the end of the
string): drop a trailing `-beta-` plus a non-empty digit run, when
present. -/
def stripBetaSuffix (s : String) : String :=
  let rev := s.data.reverse
  let ds := rev.takeWhile Char.isDigit
  if ds = [] then s
  else if (rev.drop ds.length).take 6 = ['-', 'a', 't', 'e', 'b', '-'] then
    ⟨((rev.drop ds.length).drop 6).reverse⟩
  else s

/-- Mirror of `MigrationRegistry.queryMigrations`: normalize both ends
of the transition, determine its direction by strict comparison, and
keep the registered records (in registration order) whose own direction
matches and whose qualifier range is bridged by the transition. -/
def queryMigrations (migrations : List (Migration τ))
    (fromVersion toVersion : String) : List (Migration τ) :=
  let realFromVersion := stripBetaSuffix fromVersion
  let realToVersion := stripBetaSuffix toVersion
  let isUpgrade := semverLt realFromVersion realToVersion
  migrations.filter fun migration =>
    let mFrom := migration.qualifier.fromVersion
    let mTo := migration.qualifier.toVersion
    let migrationIsUpgrade := semverLt mFrom mTo
    if isUpgrade then
      migrationIsUpgrade && semverLte realFromVersion mFrom &&
        semverGte realToVersion mTo
    else
      !migrationIsUpgrade && semverGte realFromVersion mFrom &&
        semverLte realToVersion mTo

/-- The matching predicate exactly as the specification words it: a
record matches when its own direction (`qualifier.fromVersion <
qualifier.toVersion` meaning an upgrade record) equals the direction of
the normalized requested transition, and the transition spans the
record's range (`normalizedFrom ≤ qualifier.fromVersion` and
`normalizedTo ≥ qualifier.toVersion` for upgrades, reversed for
downgrades). -/
def specMatches (fromVersion toVersion : String)
    (q : MigrationQualifier) : Bool :=
  let normalizedFrom := stripBetaSuffix fromVersion
  let normalizedTo := stripBetaSuffix toVersion
  let requestedUpgrade := semverLt normalizedFrom normalizedTo
  let recordUpgrade := semverLt q.fromVersion q.toVersion
  (recordUpgrade == requestedUpgrade) &&
    (if requestedUpgrade then
      semverLte normalizedFrom q.fromVersion && semverGte normalizedTo q.toVersion
    else
      semverGte normalizedFrom q.fromVersion && semverLte normalizedTo q.toVersion)

/-! ## Concrete fixtures used by witnesses and counterexamples -/

/-- The worked example of the specification: an upgrade migration record
bridging 0.17.4 to 0.18.0 (its tasks are irrelevant here). -/
def mig174 : Migration Unit := ⟨⟨"0.17.4", "0.18.0"⟩, (), ()⟩

/-- A migration record whose qualifier itself carries a beta suffix. -/
def cexMig : Migration Unit := ⟨⟨"0.1.0-beta-2", "0.2.0"⟩, (), ()⟩

/-- A 200 download response without the ZIP content type. -/
def malformedResp : HttpResponse := ⟨200, some "text/html", some "abc", none⟩

/-- A plugin root holding an existing install and an unrelated plugin. -/
def fsW : Fs :=
  [("vertical-tabs", [("data.json", "{}"), ("main.js", "old")]), ("other-plugin", [])]

/-- A valid one-file artifact whose swap is forced to fail. -/
def runC1 : InstallRun :=
  ⟨"h", "h", true, "zip boom", [⟨"main.js", false, "new"⟩],
    "tmpdir123", "vertical-tabs.backup.17", true, "EPERM"⟩

/-- A valid but empty artifact. -/
def runC8 : InstallRun :=
  ⟨"h", "h", true, "zip boom", [],
    "tmpdir123", "vertical-tabs.backup.17", false, "EPERM"⟩

/-! # Theorems

First the lawfulness of the version comparators (through the Batteries
`OrientedCmp` / `TransCmp` classes), then helper lemmas, then one
theorem per claim. -/

open Batteries

instance : OrientedCmp charCmp :=
  inferInstanceAs (OrientedCmp (compareOn Char.toNat))

instance : TransCmp charCmp :=
  inferInstanceAs (TransCmp (compareOn Char.toNat))

theorem listCmp_swap (c : α → α → Ordering) [OrientedCmp c] :
    ∀ x y, (listCmp c x y).swap = listCmp c y x
  | [], [] => rfl
  | [], _ :: _ => rfl
  | _ :: _, [] => rfl
  | a :: as, b :: bs => by
    simp only [listCmp, Ordering.swap_then]
    rw [OrientedCmp.symm a b, listCmp_swap c as bs]

instance listCmpOriented (c : α → α → Ordering) [OrientedCmp c] :
    OrientedCmp (listCmp c) :=
  ⟨fun x y => listCmp_swap c x y⟩

theorem listCmp_not_gt_nil (c : α → α → Ordering) :
    ∀ z, listCmp c [] z ≠ .gt
  | [] => by simp [listCmp]
  | _ :: _ => by simp [listCmp]

theorem listCmp_le_trans (c : α → α → Ordering) [TransCmp c] :
    ∀ x y z, listCmp c x y ≠ .gt → listCmp c y z ≠ .gt → listCmp c x z ≠ .gt
  | [], _, z, _, _ => listCmp_not_gt_nil c z
  | _ :: _, [], _, h1, _ => absurd rfl h1
  | _ :: _, _ :: _, [], _, h2 => absurd rfl h2
  | a :: as, b :: bs, d :: ds, h1, h2 => by
    simp only [listCmp, ne_eq, Ordering.then_eq_gt, not_or, not_and] at h1 h2 ⊢
    obtain ⟨hab, hab'⟩ := h1
    obtain ⟨hbd, hbd'⟩ := h2
    refine ⟨TransCmp.le_trans hab hbd, fun had htail => ?_⟩
    cases e : c a b with
    | gt => exact hab e
    | eq =>
      have hbs : c b d = .eq := by rw [← TransCmp.cmp_congr_left e, had]
      exact listCmp_le_trans c as bs ds (hab' e) (hbd' hbs) htail
    | lt =>
      have : c b d = .gt := by
        rw [← TransCmp.cmp_congr_right had, OrientedCmp.cmp_eq_gt]
        exact e
      exact hbd this

instance listCmpTrans (c : α → α → Ordering) [TransCmp c] :
    TransCmp (listCmp c) :=
  { listCmpOriented c with
    le_trans := fun h1 h2 => listCmp_le_trans c _ _ _ h1 h2 }

theorem natCmp_swap (a b : Nat) : (compare a b).swap = compare b a :=
  OrientedCmp.symm a b

theorem preIdCmp_swap : ∀ x y, (preIdCmp x y).swap = preIdCmp y x
  | .num a, .num b => natCmp_swap a b
  | .num _, .str _ => rfl
  | .str _, .num _ => rfl
  | .str a, .str b => listCmp_swap charCmp a b

instance preIdOriented : OrientedCmp preIdCmp := ⟨preIdCmp_swap⟩

theorem natCmp_le_trans {a b c : Nat} (h1 : compare a b ≠ .gt)
    (h2 : compare b c ≠ .gt) : compare a c ≠ .gt :=
  TransCmp.le_trans h1 h2

theorem preIdCmp_le_trans :
    ∀ x y z, preIdCmp x y ≠ .gt → preIdCmp y z ≠ .gt → preIdCmp x z ≠ .gt
  | .num _, .num _, .num _, h1, h2 => natCmp_le_trans h1 h2
  | .num _, .num _, .str _, _, _ => by simp [preIdCmp]
  | .num _, .str _, .num _, _, h2 => absurd rfl h2
  | .num _, .str _, .str _, _, _ => by simp [preIdCmp]
  | .str _, .num _, _, h1, _ => absurd rfl h1
  | .str _, .str _, .num _, _, h2 => absurd rfl h2
  | .str _, .str _, .str _, h1, h2 => listCmp_le_trans charCmp _ _ _ h1 h2

instance preIdTrans : TransCmp preIdCmp :=
  { preIdOriented with le_trans := fun h1 h2 => preIdCmp_le_trans _ _ _ h1 h2 }

theorem preCmp_swap : ∀ x y, (preCmp x y).swap = preCmp y x
  | .release, .release => rfl
  | .release, .pre _ => rfl
  | .pre _, .release => rfl
  | .pre a, .pre b => listCmp_swap preIdCmp a b

instance preOriented : OrientedCmp preCmp := ⟨preCmp_swap⟩

theorem preCmp_le_trans :
    ∀ x y z, preCmp x y ≠ .gt → preCmp y z ≠ .gt → preCmp x z ≠ .gt
  | .release, .release, _, _, h2 => h2
  | .release, .pre _, _, h1, _ => absurd rfl h1
  | .pre _, .release, .release, _, _ => by simp [preCmp]
  | .pre _, .release, .pre _, _, h2 => absurd rfl h2
  | .pre _, .pre _, .release, _, _ => by simp [preCmp]
  | .pre _, .pre _, .pre _, h1, h2 => listCmp_le_trans preIdCmp _ _ _ h1 h2

instance preTrans : TransCmp preCmp :=
  { preOriented with le_trans := fun h1 h2 => preCmp_le_trans _ _ _ h1 h2 }

instance : TransOrd Prerelease := inferInstanceAs (TransCmp preCmp)

instance : TransCmp svCmp :=
  inferInstanceAs (TransCmp (compareLex (compareOn SemVer.major)
    (compareLex (compareOn SemVer.minor)
      (compareLex (compareOn SemVer.patch) (compareOn SemVer.prerelease)))))

/-! ## Helper lemmas about the string-level comparators -/

theorem svCmp_refl (a : SemVer) : svCmp a a = .eq :=
  OrientedCmp.cmp_refl

theorem semverLt_irrefl (s : String) : semverLt s s = false := by
  unfold semverLt semverCmp
  cases h : parseSemVer s with
  | none => rfl
  | some a => simp [svCmp_refl a]

theorem semverLt_eq_true {s t : String} :
    semverLt s t = true ↔
      ∃ a b, parseSemVer s = some a ∧ parseSemVer t = some b ∧ svCmp a b = .lt := by
  unfold semverLt semverCmp
  cases hs : parseSemVer s <;> cases ht : parseSemVer t <;> simp
  cases h : svCmp _ _ <;> simp_all

theorem semverLte_eq_true {s t : String} :
    semverLte s t = true ↔
      ∃ a b, parseSemVer s = some a ∧ parseSemVer t = some b ∧ svCmp a b ≠ .gt := by
  unfold semverLte semverCmp
  cases hs : parseSemVer s <;> cases ht : parseSemVer t <;> simp
  cases h : svCmp _ _ <;> simp_all

theorem semverGte_eq_true {s t : String} :
    semverGte s t = true ↔
      ∃ a b, parseSemVer s = some a ∧ parseSemVer t = some b ∧ svCmp a b ≠ .lt := by
  unfold semverGte semverCmp
  cases hs : parseSemVer s <;> cases ht : parseSemVer t <;> simp
  cases h : svCmp _ _ <;> simp_all

/-- Core of claim C10: a transition whose two normalized ends coincide
cannot sit inside the range of a strict downgrade record. -/
theorem no_downgrade_match {r mFrom mTo : String}
    (hgte : semverGte r mFrom = true) (hlte : semverLte r mTo = true)
    (hlt : semverLt mTo mFrom = true) : False := by
  obtain ⟨a, b, har, hbf, hab⟩ := semverGte_eq_true.1 hgte
  obtain ⟨a', c, har', hct, hac⟩ := semverLte_eq_true.1 hlte
  obtain ⟨c', b', hct', hbf', hcb⟩ := semverLt_eq_true.1 hlt
  rw [har] at har'
  rw [hct] at hct'
  rw [hbf] at hbf'
  cases Option.some.inj har'
  cases Option.some.inj hct'
  cases Option.some.inj hbf'
  have hba : svCmp b a ≠ .gt := OrientedCmp.cmp_ne_gt.2 hab
  have hbc : svCmp b c ≠ .gt := TransCmp.le_trans hba hac
  exact hbc (OrientedCmp.cmp_eq_gt.2 hcb)

theorem filter_eq_nil_of_false {p : α → Bool} :
    ∀ (l : List α), (∀ a ∈ l, p a = false) → l.filter p = []
  | [], _ => rfl
  | a :: l, h => by
    have ha : p a = false := h a (List.mem_cons_self a l)
    have ih := filter_eq_nil_of_false l fun b hb => h b (List.mem_cons_of_mem a hb)
    simp [List.filter_cons, ha, ih]

theorem filter_congr_eq {p q : α → Bool} :
    ∀ (l : List α), (∀ a ∈ l, p a = q a) → l.filter p = l.filter q
  | [], _ => rfl
  | a :: l, h => by
    have ha : p a = q a := h a (List.mem_cons_self a l)
    have ih := filter_congr_eq l fun b hb => h b (List.mem_cons_of_mem a hb)
    simp [List.filter_cons, ha, ih]

/-! ## Claims about the migration registry -/

/-- C3: `queryMigrations` returns exactly the registered records whose
own direction (`qualifier.fromVersion < qualifier.toVersion` means the
record describes an upgrade) equals the direction of the normalized
requested transition and whose range is fully contained in it — for an
upgrade, `normalizedFrom ≤ qualifier.fromVersion` and `normalizedTo ≥
qualifier.toVersion`; in particular, with the upgrade record
`{0.17.4 → 0.18.0}` registered, resolving `("0.17.0", "0.19.0")`
includes it and resolving `("0.17.5", "0.18.0")` excludes it. -/
theorem claim_C3_query_matches_spec :
    (∀ (τ : Type) (reg : List (Migration τ)) (f t : String),
        queryMigrations reg f t = reg.filter fun m => specMatches f t m.qualifier) ∧
      queryMigrations [mig174] "0.17.0" "0.19.0" = [mig174] ∧
      queryMigrations [mig174] "0.17.5" "0.18.0" = [] := by
  refine ⟨fun τ reg f t => ?_, by decide, by decide⟩
  unfold queryMigrations specMatches
  refine filter_congr_eq reg fun m _ => ?_
  cases hdir : semverLt (stripBetaSuffix f) (stripBetaSuffix t) <;>
    cases hrec : semverLt m.qualifier.fromVersion m.qualifier.toVersion <;>
      simp [hdir, hrec]

/-- C7 counterexample: the claimed equivalence fails when the version
left after one round of normalization still carries a beta suffix —
normalization strips only one trailing suffix, so a doubly-suffixed
`fromVersion` normalizes to a beta version while its stripped form
normalizes further to the release, and a record whose qualifier is that
beta version distinguishes the two calls. -/
theorem claim_C7_counterexample :
    stripBetaSuffix "0.1.0-beta-2-beta-3" = "0.1.0-beta-2" ∧
      queryMigrations [cexMig] "0.1.0-beta-2-beta-3" "0.2.0" = [cexMig] ∧
      queryMigrations [cexMig] "0.1.0-beta-2" "0.2.0" = [] := by decide

/-- C7 (amended): whenever normalization of an endpoint is idempotent
(the stripped version carries no further beta suffix — in particular for
any base version with a single trailing beta-iteration suffix),
`queryMigrations` is unchanged by stripping the suffix from that
endpoint, on either side. -/
theorem claim_C7_strip_invariant (τ : Type) (reg : List (Migration τ))
    (v w : String)
    (hv : stripBetaSuffix (stripBetaSuffix v) = stripBetaSuffix v)
    (hw : stripBetaSuffix (stripBetaSuffix w) = stripBetaSuffix w) :
    queryMigrations reg v w = queryMigrations reg (stripBetaSuffix v) w ∧
      queryMigrations reg v w = queryMigrations reg v (stripBetaSuffix w) := by
  unfold queryMigrations
  rw [hv, hw]
  exact ⟨rfl, rfl⟩

/-- Witness for C7 (amended), at the specification's own example:
resolving from `"0.17.4-beta-3"` behaves identically to resolving from
the stripped `"0.17.4"`. -/
theorem claim_C7_strip_invariant_witness :
    queryMigrations [mig174] "0.17.4-beta-3" "0.18.0" =
        queryMigrations [mig174] (stripBetaSuffix "0.17.4-beta-3") "0.18.0" ∧
      queryMigrations [mig174] "0.17.4-beta-3" "0.18.0" =
        queryMigrations [mig174] "0.17.4-beta-3" (stripBetaSuffix "0.18.0") :=
  claim_C7_strip_invariant Unit [mig174] "0.17.4-beta-3" "0.18.0"
    (by decide) (by decide)

/-- C10: when the two beta-normalized endpoints coincide, the transition
is classified as a downgrade (the direction test is strict, so
`isUpgrade` is false), and no strictly-directed record (one whose
qualifier's endpoints are ordered one way or the other) can match, so a
registry of such records yields the empty list. -/
theorem claim_C10_equal_endpoints (τ : Type) (reg : List (Migration τ))
    (f t : String) (heq : stripBetaSuffix f = stripBetaSuffix t)
    (hstrict : ∀ m ∈ reg,
      semverLt m.qualifier.fromVersion m.qualifier.toVersion = true ∨
        semverLt m.qualifier.toVersion m.qualifier.fromVersion = true) :
    semverLt (stripBetaSuffix f) (stripBetaSuffix t) = false ∧
      queryMigrations reg f t = [] := by
  have hirr : semverLt (stripBetaSuffix f) (stripBetaSuffix t) = false := by
    rw [heq]
    exact semverLt_irrefl _
  refine ⟨hirr, ?_⟩
  unfold queryMigrations
  simp only [hirr]
  apply filter_eq_nil_of_false
  intro m hm
  rcases hstrict m hm with hup | hdown
  · simp [hup]
  · cases hg : semverGte (stripBetaSuffix f) m.qualifier.fromVersion with
    | false => simp [hg]
    | true =>
      cases hl : semverLte (stripBetaSuffix t) m.qualifier.toVersion with
      | false => simp [hl]
      | true =>
        exfalso
        rw [← heq] at hl
        exact no_downgrade_match hg hl hdown

/-- Witness for C10: two beta builds of the 0.18.0 release yield no
migrations from a registry holding the strictly-directed record
`{0.17.4 → 0.18.0}`. -/
theorem claim_C10_equal_endpoints_witness :
    semverLt (stripBetaSuffix "0.18.0-beta-1") (stripBetaSuffix "0.18.0-beta-5") = false ∧
      queryMigrations [mig174] "0.18.0-beta-1" "0.18.0-beta-5" = [] :=
  claim_C10_equal_endpoints Unit [mig174] "0.18.0-beta-1" "0.18.0-beta-5"
    (by decide) (by decide)

/-! ## Lemmas about the retry engine -/

theorem retryFrom_calls_le (fn : Nat → Except E A) (cfg : RetryConfig E) :
    ∀ remaining attempt, (retryFrom fn cfg attempt remaining).calls ≤ remaining + 1
  | 0, attempt => by
    unfold retryFrom
    cases fn attempt <;> simp
  | r + 1, attempt => by
    have ih := retryFrom_calls_le fn cfg r (attempt + 1)
    unfold retryFrom
    cases fn attempt with
    | ok v => simp
    | error e =>
      cases cfg.shouldRetry with
      | none => simpa using Nat.succ_le_succ ih
      | some s =>
        by_cases hr : (s e attempt).retry
        · simp [hr]
          omega
        · simp [hr]

theorem retryFrom_sleeps_le (fn : Nat → Except E A) (cfg : RetryConfig E) :
    ∀ remaining attempt, (retryFrom fn cfg attempt remaining).sleeps.length ≤ remaining
  | 0, attempt => by
    unfold retryFrom
    cases fn attempt <;> simp
  | r + 1, attempt => by
    have ih := retryFrom_sleeps_le fn cfg r (attempt + 1)
    unfold retryFrom
    cases fn attempt with
    | ok v => simp
    | error e =>
      cases cfg.shouldRetry with
      | none => simpa using Nat.succ_le_succ ih
      | some s =>
        by_cases hr : (s e attempt).retry
        · simp [hr]
          omega
        · simp [hr]

theorem retryFrom_decided_lt (fn : Nat → Except E A) (cfg : RetryConfig E) :
    ∀ remaining attempt a,
      a ∈ (retryFrom fn cfg attempt remaining).decided → a < attempt + remaining
  | 0, attempt, a => by
    unfold retryFrom
    cases fn attempt <;> simp
  | r + 1, attempt, a => by
    have ih := retryFrom_decided_lt fn cfg r (attempt + 1) a
    unfold retryFrom
    cases fn attempt with
    | ok v => simp
    | error e =>
      cases cfg.shouldRetry with
      | none =>
        intro ha
        have := ih ha
        omega
      | some s =>
        by_cases hr : (s e attempt).retry <;> simp [hr]
        · rintro (rfl | ha)
          · omega
          · have := ih ha
            omega
        · omega

theorem retryFrom_all_fail_none (err : Nat → E) (fn : Nat → Except E A)
    (hfn : ∀ i, fn i = .error (err i)) (cfg : RetryConfig E)
    (hnone : cfg.shouldRetry = none) :
    ∀ remaining attempt,
      (retryFrom fn cfg attempt remaining).result = .error (err (attempt + remaining)) ∧
        (retryFrom fn cfg attempt remaining).calls = remaining + 1
  | 0, attempt => by
    unfold retryFrom
    rw [hfn attempt]
    simp
  | r + 1, attempt => by
    have ih := retryFrom_all_fail_none err fn hfn cfg hnone r (attempt + 1)
    have harith : attempt + 1 + r = attempt + (r + 1) := by omega
    unfold retryFrom
    rw [hfn attempt, hnone]
    simpa [harith] using ih

theorem retryFrom_all_fail_retry (err : Nat → E) (fn : Nat → Except E A)
    (hfn : ∀ i, fn i = .error (err i)) (cfg : RetryConfig E)
    (s : E → Nat → RetryDecision) (hsome : cfg.shouldRetry = some s)
    (hret : ∀ e a, (s e a).retry = true) :
    ∀ remaining attempt,
      (retryFrom fn cfg attempt remaining).result = .error (err (attempt + remaining))
  | 0, attempt => by
    unfold retryFrom
    rw [hfn attempt]
    simp
  | r + 1, attempt => by
    have ih := retryFrom_all_fail_retry err fn hfn cfg s hsome hret r (attempt + 1)
    have harith : attempt + 1 + r = attempt + (r + 1) := by omega
    unfold retryFrom
    rw [hfn attempt, hsome]
    simpa [hret] using harith ▸ ih

/-! ## Claims about the retry engine -/

/-- C2: with `maxRetries = n` (and no decision function supplied, the
configuration the claim describes), an operation that fails on every
attempt is invoked exactly `n + 1` times and the error of the final
attempt (index `n`) is raised; moreover for every configuration and
every operation the engine never makes more than `maxRetries + 1`
calls. -/
theorem claim_C2_retry_budget (E A : Type) (n d0 : Nat) (err : Nat → E)
    (fn : Nat → Except E A) (hfn : ∀ i, fn i = .error (err i)) :
    ((retryWithBackoff fn ⟨n, d0, none⟩).calls = n + 1 ∧
      (retryWithBackoff fn ⟨n, d0, none⟩).result = .error (err n)) ∧
    ∀ (fn' : Nat → Except E A) (cfg : RetryConfig E),
      (retryWithBackoff fn' cfg).calls ≤ cfg.maxRetries + 1 := by
  have h := retryFrom_all_fail_none err fn hfn ⟨n, d0, none⟩ rfl n 0
  rw [Nat.zero_add] at h
  exact ⟨⟨h.2, h.1⟩, fun fn' cfg => retryFrom_calls_le fn' cfg cfg.maxRetries 0⟩

/-- Witness for C2 at `n = 2`: a permanently failing operation is
called exactly 3 times and the third error is raised. -/
theorem claim_C2_retry_budget_witness :
    (((retryWithBackoff (fun i => .error i) ⟨2, 7, none⟩ : RetryTrace Nat Unit).calls = 2 + 1 ∧
      (retryWithBackoff (fun i => .error i) ⟨2, 7, none⟩ : RetryTrace Nat Unit).result = .error 2) ∧
    ∀ (fn' : Nat → Except Nat Unit) (cfg : RetryConfig Nat),
      (retryWithBackoff fn' cfg).calls ≤ cfg.maxRetries + 1) :=
  claim_C2_retry_budget Nat Unit 2 7 (fun i => i) (fun i => .error i) (fun _ => rfl)

/-- C9: with a decision function supplied, every consulted attempt index
is strictly below `maxRetries` (the exhaustion check precedes the
decision call, so the function is never consulted on the final permitted
attempt), there is never a sleep after the final attempt, the decision
function cannot extend the attempt budget, and when every attempt fails
and the decision always allows a retry the error raised is the one of
attempt `maxRetries`. -/
theorem claim_C9_decider_never_on_final (E A : Type) (fn : Nat → Except E A)
    (cfg : RetryConfig E) (s : E → Nat → RetryDecision)
    (hs : cfg.shouldRetry = some s) :
    (∀ a ∈ (retryWithBackoff fn cfg).decided, a < cfg.maxRetries) ∧
      (retryWithBackoff fn cfg).sleeps.length ≤ cfg.maxRetries ∧
      (retryWithBackoff fn cfg).calls ≤ cfg.maxRetries + 1 ∧
      ∀ (err : Nat → E), (∀ i, fn i = .error (err i)) →
        (∀ e a, (s e a).retry = true) →
        (retryWithBackoff fn cfg).result = .error (err cfg.maxRetries) := by
  refine ⟨fun a ha => ?_, retryFrom_sleeps_le fn cfg cfg.maxRetries 0,
    retryFrom_calls_le fn cfg cfg.maxRetries 0, fun err hfn hret => ?_⟩
  · have := retryFrom_decided_lt fn cfg cfg.maxRetries 0 a ha
    omega
  · have h := retryFrom_all_fail_retry err fn hfn cfg s hs hret cfg.maxRetries 0
    rw [Nat.zero_add] at h
    exact h

/-- Witness for C9 with `maxRetries = 2` and an always-retry decider. -/
theorem claim_C9_decider_never_on_final_witness :
    (∀ a ∈ (retryWithBackoff (fun i => .error i)
        (⟨2, 5, some fun _ _ => ⟨true, none⟩⟩ : RetryConfig Nat) :
        RetryTrace Nat Unit).decided, a < 2) ∧
      (retryWithBackoff (fun i => .error i)
        (⟨2, 5, some fun _ _ => ⟨true, none⟩⟩ : RetryConfig Nat) :
        RetryTrace Nat Unit).sleeps.length ≤ 2 ∧
      (retryWithBackoff (fun i => .error i)
        (⟨2, 5, some fun _ _ => ⟨true, none⟩⟩ : RetryConfig Nat) :
        RetryTrace Nat Unit).calls ≤ 2 + 1 ∧
      ∀ (err : Nat → Nat), (∀ i, (Except.error i : Except Nat Unit) = .error (err i)) →
        (∀ (e a : Nat), ((fun _ _ => (⟨true, none⟩ : RetryDecision)) e a).retry = true) →
        (retryWithBackoff (fun i => .error i)
          (⟨2, 5, some fun _ _ => ⟨true, none⟩⟩ : RetryConfig Nat) :
          RetryTrace Nat Unit).result = .error (err 2) :=
  claim_C9_decider_never_on_final Nat Unit (fun i => .error i)
    ⟨2, 5, some fun _ _ => ⟨true, none⟩⟩ (fun _ _ => ⟨true, none⟩) rfl

/-! ## Step lemmas for unfolding one loop iteration -/

theorem retryFrom_ok (fn : Nat → Except E A) (cfg : RetryConfig E)
    (attempt remaining : Nat) (v : A) (hfn : fn attempt = .ok v) :
    retryFrom fn cfg attempt remaining = ⟨.ok v, [], 1, []⟩ := by
  cases remaining with
  | zero =>
    unfold retryFrom
    rw [hfn]
  | succ r =>
    unfold retryFrom
    rw [hfn]

theorem retryFrom_step_retry (fn : Nat → Except E A) (cfg : RetryConfig E)
    (attempt r : Nat) (e : E) (s : E → Nat → RetryDecision) (d : Option Nat)
    (hfn : fn attempt = .error e) (hs : cfg.shouldRetry = some s)
    (hd : s e attempt = ⟨true, d⟩) :
    retryFrom fn cfg attempt (r + 1) =
      ⟨(retryFrom fn cfg (attempt + 1) r).result,
        d.getD (cfg.initialDelay * 2 ^ attempt) ::
          (retryFrom fn cfg (attempt + 1) r).sleeps,
        (retryFrom fn cfg (attempt + 1) r).calls + 1,
        attempt :: (retryFrom fn cfg (attempt + 1) r).decided⟩ := by
  conv_lhs => unfold retryFrom
  simp only [hfn, hs, hd]
  simp

theorem retryFrom_step_veto (fn : Nat → Except E A) (cfg : RetryConfig E)
    (attempt r : Nat) (e : E) (s : E → Nat → RetryDecision) (d : Option Nat)
    (hfn : fn attempt = .error e) (hs : cfg.shouldRetry = some s)
    (hd : s e attempt = ⟨false, d⟩) :
    retryFrom fn cfg attempt (r + 1) = ⟨.error e, [], 1, [attempt]⟩ := by
  conv_lhs => unfold retryFrom
  simp only [hfn, hs, hd]
  simp

/-! ## Claims about the artifact downloader -/

/-- C4: a `BuildNotReady` classification with a positive `retry_after`
hint is retried after exactly the server-provided delay when the call is
not manual — the specification's scenario (hint of `r` seconds on
attempts 1 and 2, success on attempt 3) makes 3 calls with sleeps of
`r * 1000` milliseconds each — while a manual call propagates the error
immediately after a single call. -/
theorem claim_C4_build_not_ready (r : Nat) (sha : String)
    (server server' : Nat → HttpResponse) (hr : 0 < r) (hsha : sha ≠ "")
    (h0 : server 0 = notReadyResp r) (h1 : server 1 = notReadyResp r)
    (h2 : server 2 = okResp sha) (h0' : server' 0 = notReadyResp r) :
    ((downloadBuild server false).result = .ok (okResp sha) ∧
      (downloadBuild server false).calls = 3 ∧
      (downloadBuild server false).sleeps = [r * 1000, r * 1000]) ∧
    ((downloadBuild server' true).calls = 1 ∧
      (downloadBuild server' true).result =
        .error (.apiException .BuildNotReady (some r))) := by
  have hne : ¬ (r * 1000 = 0) := by omega
  have hdelay : (if r * 1000 = 0 then RETRY_DELAY else r * 1000) = r * 1000 :=
    if_neg hne
  have hc0 : downloadAttempt server 0 =
      .error (.apiException .BuildNotReady (some r)) := by
    unfold downloadAttempt classifyDownload
    rw [h0]
    rfl
  have hc1 : downloadAttempt server 1 =
      .error (.apiException .BuildNotReady (some r)) := by
    unfold downloadAttempt classifyDownload
    rw [h1]
    rfl
  have htr : headerTruthy (okResp sha).sha256 = true := by
    simp [headerTruthy, okResp, hsha]
  have hcond : (okResp sha).contentType = some "application/zip" ∧
      headerTruthy (okResp sha).sha256 = true := ⟨rfl, htr⟩
  have hok : downloadAttempt server 2 = .ok (okResp sha) := by
    unfold downloadAttempt classifyDownload
    rw [h2, if_pos hcond]
    rfl
  have hd : ∀ a, downloadShouldRetry false
      (.apiException .BuildNotReady (some r)) a = ⟨true, some (r * 1000)⟩ := by
    intro a
    show (⟨!false, some (if r * 1000 = 0 then RETRY_DELAY else r * 1000)⟩ :
      RetryDecision) = _
    rw [hdelay]
    rfl
  have hc0' : downloadAttempt server' 0 =
      .error (.apiException .BuildNotReady (some r)) := by
    unfold downloadAttempt classifyDownload
    rw [h0']
    rfl
  have hd' : downloadShouldRetry true
      (.apiException .BuildNotReady (some r)) 0 = ⟨false, some (r * 1000)⟩ := by
    show (⟨!true, some (if r * 1000 = 0 then RETRY_DELAY else r * 1000)⟩ :
      RetryDecision) = _
    rw [hdelay]
    rfl
  constructor
  · unfold downloadBuild retryWithBackoff
    rw [show (5 : Nat) = 4 + 1 from rfl,
      retryFrom_step_retry _ _ 0 4 _ _ _ hc0 rfl (hd 0),
      show (4 : Nat) = 3 + 1 from rfl,
      retryFrom_step_retry _ _ 1 3 _ _ _ hc1 rfl (hd 1),
      retryFrom_ok _ _ 2 3 _ hok]
    exact ⟨rfl, rfl, rfl⟩
  · unfold downloadBuild retryWithBackoff
    rw [show (5 : Nat) = 4 + 1 from rfl,
      retryFrom_step_veto _ _ 0 4 _ _ _ hc0' rfl hd']
    exact ⟨rfl, rfl⟩

/-- Witness for C4 at `r = 2` seconds: about 4 seconds of total delay
(2000 ms twice), 3 calls, and a fail-fast manual call. -/
theorem claim_C4_build_not_ready_witness :
    (((downloadBuild (fun i => if i < 2 then notReadyResp 2 else okResp "abc") false).result
          = .ok (okResp "abc") ∧
        (downloadBuild (fun i => if i < 2 then notReadyResp 2 else okResp "abc") false).calls = 3 ∧
        (downloadBuild (fun i => if i < 2 then notReadyResp 2 else okResp "abc") false).sleeps
          = [2 * 1000, 2 * 1000]) ∧
      ((downloadBuild (fun _ => notReadyResp 2) true).calls = 1 ∧
        (downloadBuild (fun _ => notReadyResp 2) true).result =
          .error (.apiException .BuildNotReady (some 2)))) :=
  claim_C4_build_not_ready 2 "abc"
    (fun i => if i < 2 then notReadyResp 2 else okResp "abc") (fun _ => notReadyResp 2)
    (by decide) (by decide) (by decide) (by decide) (by decide) (by decide)

/-- C5 counterexample: a 200 response lacking the ZIP content type is
classified `UnknownError`, which is retryable — the downloader performs
all 6 calls (maxRetries = 5) instead of propagating after the first. -/
theorem claim_C5_counterexample :
    (downloadBuild (fun _ => malformedResp) false).calls = 6 ∧
      (downloadBuild (fun _ => malformedResp) false).result =
        .error (.apiException .UnknownError none) :=
  ⟨rfl, rfl⟩

/-- C5 (amended): a 200 response lacking the ZIP content type or a
non-empty digest header is classified `UnknownError`, a retryable kind:
the downloader retries it with the default exponential backoff (sleeps
1000·2^i ms) and only after exhausting all 6 calls propagates the
`UnknownError` to the caller. -/
theorem claim_C5_malformed_retried (server : Nat → HttpResponse)
    (h : ∀ i, (server i).status = 200 ∧
      ¬((server i).contentType = some "application/zip" ∧
        headerTruthy (server i).sha256 = true)) :
    (downloadBuild server false).result = .error (.apiException .UnknownError none) ∧
      (downloadBuild server false).calls = 6 ∧
      (downloadBuild server false).sleeps = [1000, 2000, 4000, 8000, 16000] := by
  have hclass : ∀ i, downloadAttempt server i =
      .error (.apiException .UnknownError none) := by
    intro i
    obtain ⟨hst, hmal⟩ := h i
    unfold downloadAttempt classifyDownload
    rw [hst, if_neg hmal]
    rfl
  have hfun : downloadAttempt server =
      fun _ => .error (.apiException .UnknownError none) := funext hclass
  unfold downloadBuild retryWithBackoff
  rw [hfun]
  exact ⟨rfl, rfl, rfl⟩

/-- Witness for C5 (amended), with every response a malformed 200. -/
theorem claim_C5_malformed_retried_witness :
    (downloadBuild (fun _ => malformedResp) false).result =
        .error (.apiException .UnknownError none) ∧
      (downloadBuild (fun _ => malformedResp) false).calls = 6 ∧
      (downloadBuild (fun _ => malformedResp) false).sleeps =
        [1000, 2000, 4000, 8000, 16000] :=
  claim_C5_malformed_retried (fun _ => malformedResp) fun _ =>
    show malformedResp.status = 200 ∧
        ¬(malformedResp.contentType = some "application/zip" ∧
          headerTruthy malformedResp.sha256 = true) from by decide

/-- C6 counterexample: a rate-limited (429) failure is not retried — the
downloader makes exactly one call and propagates the `RateLimited`
error, unlike `ServerError` and `UnknownError` which are retried. -/
theorem claim_C6_counterexample :
    ((downloadBuild (fun _ => rateLimitedResp) false).calls = 1 ∧
      (downloadBuild (fun _ => rateLimitedResp) false).result =
        .error (.apiException .RateLimited none)) ∧
      (downloadBuild (fun _ => (⟨500, none, none, none⟩ : HttpResponse)) false).calls = 6 :=
  ⟨⟨rfl, rfl⟩, rfl⟩

/-- C6 (amended): `RateLimited` is not in `RETRYABLE_ERRORS`, so the
decision function vetoes the retry: for every schedule whose first
response is a 429 (manual or not), the downloader makes exactly one
call, never sleeps, and propagates the `RateLimited` error
immediately. -/
theorem claim_C6_rate_limited_no_retry (server : Nat → HttpResponse)
    (manual : Bool) (h : (server 0).status = 429) :
    (downloadBuild server manual).calls = 1 ∧
      (downloadBuild server manual).sleeps = [] ∧
      (downloadBuild server manual).result =
        .error (.apiException .RateLimited none) := by
  have hclass : downloadAttempt server 0 =
      .error (.apiException .RateLimited none) := by
    unfold downloadAttempt classifyDownload
    rw [h]
    rfl
  have hd : downloadShouldRetry manual (.apiException .RateLimited none) 0 =
      ⟨false, none⟩ := rfl
  unfold downloadBuild retryWithBackoff
  rw [show (5 : Nat) = 4 + 1 from rfl,
    retryFrom_step_veto _ _ 0 4 _ _ _ hclass rfl hd]
  exact ⟨rfl, rfl, rfl⟩

/-- Witness for C6 (amended) at an always-429 schedule. -/
theorem claim_C6_rate_limited_no_retry_witness :
    (downloadBuild (fun _ => rateLimitedResp) false).calls = 1 ∧
      (downloadBuild (fun _ => rateLimitedResp) false).sleeps = [] ∧
      (downloadBuild (fun _ => rateLimitedResp) false).result =
        .error (.apiException .RateLimited none) :=
  claim_C6_rate_limited_no_retry (fun _ => rateLimitedResp) false rfl

/-! ## Lemmas about the filesystem model -/

theorem fsGet_fsSet : ∀ (fs : Fs) (p : String) (d : Dir) (q : String),
    fsGet (fsSet fs p d) q = if p = q then some d else fsGet fs q
  | [], p, d, q => by
    by_cases h : p = q <;> simp [fsSet, fsGet, h]
  | (k, e) :: rest, p, d, q => by
    have ih := fsGet_fsSet rest p d q
    by_cases hkp : k = p
    · subst hkp
      by_cases hkq : k = q <;> simp [fsSet, fsGet, hkq]
    · by_cases hkq : k = q
      · have hpq : ¬ p = q := fun h => hkp (hkq.trans h.symm)
        have hqp : ¬ q = p := fun h => hkp (hkq.trans h)
        simp [fsSet, fsGet, hkp, hkq, hpq, hqp]
      · simp [fsSet, fsGet, hkp, hkq, ih]

theorem fsGet_fsRemove : ∀ (fs : Fs) (p q : String),
    fsGet (fsRemove fs p) q = if p = q then none else fsGet fs q
  | [], p, q => by
    by_cases h : p = q <;> simp [fsRemove, fsGet, h]
  | (k, e) :: rest, p, q => by
    have ih := fsGet_fsRemove rest p q
    by_cases hkp : k = p
    · subst hkp
      by_cases hkq : k = q
      · subst hkq
        simp [fsRemove, fsGet, ih]
      · simp [fsRemove, fsGet, ih, hkq]
    · by_cases hkq : k = q
      · have hpq : ¬ p = q := fun h => hkp (hkq.trans h.symm)
        have hqp : ¬ q = p := fun h => hkp (hkq.trans h)
        simp [fsRemove, fsGet, hkp, hkq, hpq, hqp]
      · simp [fsRemove, fsGet, hkp, hkq, ih]

theorem fsGet_fsWrite_ne (fs : Fs) (dir rel content q : String) (h : dir ≠ q) :
    fsGet (fsWrite fs dir rel content) q = fsGet fs q := by
  unfold fsWrite
  cases fsGet fs dir <;> simp [fsGet_fsSet, h]

theorem extractEntries_get_ne (tempDir : String) :
    ∀ (es : List ZipEntry) (fs : Fs) (q : String), tempDir ≠ q →
      fsGet (extractEntries tempDir fs es) q = fsGet fs q
  | [], fs, q, _ => rfl
  | e :: rest, fs, q, h => by
    unfold extractEntries
    by_cases hd : e.isDir
    · rw [if_pos hd, extractEntries_get_ne tempDir rest fs q h]
    · rw [if_neg hd, extractEntries_get_ne tempDir rest _ q h,
        fsGet_fsWrite_ne fs tempDir e.relativePath e.content q h]

theorem cleanup_get_ne (fs : Fs) (p q : String) (h : p ≠ q) :
    fsGet (cleanup fs p) q = fsGet fs q := by
  unfold cleanup
  by_cases he : fsExists fs p <;> simp [he, fsGet_fsRemove, h]

theorem cleanup_get_self (fs : Fs) (p : String) : fsGet (cleanup fs p) p = none := by
  unfold cleanup
  cases he : fsExists fs p with
  | true => simp [fsGet_fsRemove]
  | false =>
    simp only [Bool.false_eq_true, if_false]
    unfold fsExists at he
    cases hg : fsGet fs p
    · rfl
    · rw [hg] at he
      simp at he

/-- Step 5 followed by a failing step 6: with an existing install at the
target, a fresh backup name, and an injected swap failure, `backupAndSwap`
performs the backup rename, fails the swap, rolls the backup back into
the target and raises `Installation failed`. -/
theorem backupAndSwap_swap_fails (run : InstallRun) (fs3 : Fs) (d0 : Dir)
    (hsf : run.swapFails = true)
    (h3t : fsGet fs3 VERTICAL_TABS_ID = some d0)
    (h3b : fsGet fs3 run.backupDirName = none)
    (hbtn : run.backupDirName ≠ VERTICAL_TABS_ID) :
    backupAndSwap run fs3 =
      (.error (.upgradeException ("Installation failed: " ++ run.swapErrMsg)),
        fsSet (fsRemove (fsSet (fsRemove fs3 VERTICAL_TABS_ID)
            run.backupDirName d0) run.backupDirName) VERTICAL_TABS_ID d0) := by
  have hex : fsExists fs3 VERTICAL_TABS_ID = true := by
    simp [fsExists, h3t]
  have hr1 : fsRename fs3 VERTICAL_TABS_ID run.backupDirName =
      some (fsSet (fsRemove fs3 VERTICAL_TABS_ID) run.backupDirName d0) := by
    unfold fsRename
    rw [h3t]
    simp [fsExists, h3b]
  have hr2 : fsRename (fsSet (fsRemove fs3 VERTICAL_TABS_ID)
        run.backupDirName d0) run.backupDirName VERTICAL_TABS_ID =
      some (fsSet (fsRemove (fsSet (fsRemove fs3 VERTICAL_TABS_ID)
        run.backupDirName d0) run.backupDirName) VERTICAL_TABS_ID d0) := by
    unfold fsRename
    rw [fsGet_fsSet]
    simp only [if_pos rfl]
    have hget : fsGet (fsSet (fsRemove fs3 VERTICAL_TABS_ID)
        run.backupDirName d0) VERTICAL_TABS_ID = none := by
      rw [fsGet_fsSet, if_neg hbtn, fsGet_fsRemove, if_pos rfl]
    simp [fsExists, hget]
  unfold backupAndSwap
  simp only [hex, if_pos rfl, hr1, hsf, if_true, hr2, Option.getD]

theorem copySettings_get_ne (run : InstallRun) (fs2 : Fs) (q : String)
    (hq : run.tempDirName ≠ q) :
    fsGet (copySettings run fs2) q = fsGet fs2 q := by
  unfold copySettings
  split
  · split
    · rw [fsGet_fsWrite_ne _ _ _ _ _ hq]
    · rfl
  · rfl

/-- Every filesystem state reached before step 5 agrees with the initial
state away from the staging directory. -/
theorem stagingState_get_ne (run : InstallRun) (fs0 : Fs) (q : String)
    (hq : run.tempDirName ≠ q) :
    fsGet (copySettings run (extractEntries run.tempDirName
      (fsSet fs0 run.tempDirName []) run.entries)) q = fsGet fs0 q := by
  rw [copySettings_get_ne _ _ _ hq, extractEntries_get_ne _ _ _ _ hq,
    fsGet_fsSet, if_neg hq]

/-! ## Claims about the atomic install pipeline -/

/-- C1: when the target holds an existing install, the artifact has
extracted successfully into the staging directory (valid digest, valid
non-empty archive, fresh staging and backup names), and the swap rename
fails, the pipeline renames the backup back into the target, removes the
leftover staging directory, and raises `Installation failed`; the final
filesystem agrees with the initial one at every path — the target is
restored and no staging or backup directory remains. -/
theorem claim_C1_swap_failure_rollback (run : InstallRun) (fs0 : Fs) (d0 : Dir)
    (htarget : fsGet fs0 VERTICAL_TABS_ID = some d0)
    (htemp : fsGet fs0 run.tempDirName = none)
    (hbackup : fsGet fs0 run.backupDirName = none)
    (httn : run.tempDirName ≠ VERTICAL_TABS_ID)
    (hbtn : run.backupDirName ≠ VERTICAL_TABS_ID)
    (htb : run.tempDirName ≠ run.backupDirName)
    (hhash : run.computedSha = run.sha256)
    (hzip : run.zipOk = true)
    (hne : run.entries ≠ [])
    (hswap : run.swapFails = true) :
    (verifyAndUpgrade run fs0).1 =
        .error (.upgradeException ("Installation failed: " ++ run.swapErrMsg)) ∧
      ∀ p, fsGet (verifyAndUpgrade run fs0).2 p = fsGet fs0 p := by
  have hbody : verifyAndUpgradeBody run fs0 = backupAndSwap run
      (copySettings run (extractEntries run.tempDirName
        (fsSet fs0 run.tempDirName []) run.entries)) := by
    unfold verifyAndUpgradeBody
    rw [if_neg (fun hcon => hcon hhash),
      if_neg (fun hcon : run.zipOk = false => by rw [hzip] at hcon; cases hcon),
      if_neg hne]
  set fs3 := copySettings run (extractEntries run.tempDirName
    (fsSet fs0 run.tempDirName []) run.entries) with hfs3
  have h3ne : ∀ q, run.tempDirName ≠ q → fsGet fs3 q = fsGet fs0 q :=
    fun q hq => stagingState_get_ne run fs0 q hq
  have h3t : fsGet fs3 VERTICAL_TABS_ID = some d0 := by
    rw [h3ne VERTICAL_TABS_ID httn]
    exact htarget
  have h3b : fsGet fs3 run.backupDirName = none := by
    rw [h3ne run.backupDirName htb]
    exact hbackup
  have hswapped := backupAndSwap_swap_fails run fs3 d0 hswap h3t h3b hbtn
  have hmain : verifyAndUpgrade run fs0 =
      (.error (.upgradeException ("Installation failed: " ++ run.swapErrMsg)),
        cleanup (fsSet (fsRemove (fsSet (fsRemove fs3 VERTICAL_TABS_ID)
            run.backupDirName d0) run.backupDirName) VERTICAL_TABS_ID d0)
          run.tempDirName) := by
    unfold verifyAndUpgrade
    rw [hbody, hswapped]
  rw [hmain]
  refine ⟨rfl, fun p => ?_⟩
  by_cases hp : run.tempDirName = p
  · subst hp
    rw [cleanup_get_self, htemp]
  · rw [cleanup_get_ne _ _ _ hp, fsGet_fsSet]
    by_cases hpt : VERTICAL_TABS_ID = p
    · rw [if_pos hpt, ← hpt, htarget]
    · rw [if_neg hpt, fsGet_fsRemove]
      by_cases hpb : run.backupDirName = p
      · rw [if_pos hpb, ← hpb, hbackup]
      · rw [if_neg hpb, fsGet_fsSet, if_neg hpb, fsGet_fsRemove, if_neg hpt]
        exact h3ne p hp

/-- Witness for C1: the concrete rollback scenario — existing install,
one-file artifact, forced swap failure. -/
theorem claim_C1_swap_failure_rollback_witness :
    (verifyAndUpgrade runC1 fsW).1 =
        .error (.upgradeException ("Installation failed: " ++ runC1.swapErrMsg)) ∧
      ∀ p, fsGet (verifyAndUpgrade runC1 fsW).2 p = fsGet fsW p :=
  claim_C1_swap_failure_rollback runC1 fsW [("data.json", "{}"), ("main.js", "old")]
    rfl rfl rfl (by decide) (by decide) (by decide) rfl rfl (by decide) rfl

/-- C8: a valid artifact whose archive holds zero entries is rejected
with the malformed-artifact message before any filesystem mutation — the
final filesystem is literally the initial one (given that the staging
name is fresh, so the idempotent cleanup finds nothing to remove): no
staging directory is created and target and backup paths are
untouched. -/
theorem claim_C8_empty_archive (run : InstallRun) (fs0 : Fs)
    (hhash : run.computedSha = run.sha256) (hzip : run.zipOk = true)
    (hempty : run.entries = []) (htemp : fsGet fs0 run.tempDirName = none) :
    verifyAndUpgrade run fs0 =
      (.error (.upgradeException "The downloaded file is empty or corrupted."),
        fs0) := by
  have hclean : cleanup fs0 run.tempDirName = fs0 := by
    unfold cleanup fsExists
    rw [htemp]
    simp
  unfold verifyAndUpgrade verifyAndUpgradeBody
  rw [if_neg (fun hcon => hcon hhash),
    if_neg (fun hcon : run.zipOk = false => by rw [hzip] at hcon; cases hcon),
    if_pos hempty]
  simp only [hclean]

/-- Witness for C8: the empty artifact against the concrete plugin root. -/
theorem claim_C8_empty_archive_witness :
    verifyAndUpgrade runC8 fsW =
      (.error (.upgradeException "The downloaded file is empty or corrupted."),
        fsW) :=
  claim_C8_empty_archive runC8 fsW rfl rfl rfl rfl

end BetaHelper
